import Mathlib

/-!
# prometheus-jq-exporter: the query-driven metric synthesis pipeline

A shallow embedding of `main.go`: `jq`, `makeLabelKV`, the three coercions
(`asCounterValue`, `asGaugeValue`, `asLabelValue`), `asSlice`, `makeMetrics`
and `handleProbe`.

Packages the program imports (gojq, strconv's float routines, text/template,
net/http, VictoriaMetrics/metrics name validation) are not part of the
program; what the program needs of them is collected in the structure `Lib`
and every definition takes it as its first argument.
-/

namespace JqExporter

/-! ## Data model -/

/-- Go type `Query = string`. -/
abbrev Query := String

/-- A Go `float64`, given by its IEEE-754 binary64 bit pattern. -/
structure Float64 where
  bits : Nat
deriving DecidableEq, Repr

/-- The dynamic values (`any`) that `json.Unmarshal` and gojq hand to the
program: `nil`, `bool`, `int`, `float64`, `*big.Int`, `string`, `[]any` and
`map[string]any`. -/
inductive Value where
  | null
  | bool (b : Bool)
  | int (i : Int)
  | float (f : Float64)
  | bigint (i : Int)
  | str (s : String)
  | slice (xs : List Value)
  | map (kvs : List (String × Value))

/-- Go `error` values the program sees. -/
inductive GoError where
  /-- A `*gojq.HaltError` whose `Value()` is `v` (`Value.null` for `nil`) -/
  | halt (v : Value)
  /-- Any other error coming out of gojq (parse, compile, runtime, context) -/
  | query (msg : String)
  /-- A `*strconv.NumError` with `Err = strconv.ErrSyntax` -/
  | syntaxErr (fn : String) (s : String)
  /-- A `*strconv.NumError` with `Err = strconv.ErrRange` -/
  | rangeErr (fn : String) (s : String)
  /-- The error `fmt.Errorf("valueType %s is not supported", valueType)` -/
  | unsupported (valueType : String)
  /-- An error of the retrieval or of the body template -/
  | external (msg : String)

/-- What one `iter.Next()` of a gojq iterator yields while `ok` is true: a
value, or an `error` boxed as a value. -/
inductive Item where
  | val (v : Value)
  | err (e : GoError)

/-- The imported packages, as far as the program uses them. -/
structure Lib where
  /-- Call `gojq.Parse(query)`: the parse error, `none` when the query parses -/
  Parse : Query → Option GoError
  /-- Call `q.RunWithContext(ctx, value)` for the parsed query: the items its
  iterator yields, in order, until `Next` reports `ok = false` (`jq` reads
  them up to the first error item; a cancelled context shows up as one) -/
  Run : Query → Value → List Item
  /-- Call `strconv.FormatFloat(f, 'g', -1, 64)`, which is `%v` of a float64 -/
  FormatFloat : Float64 → String
  /-- Call `strconv.ParseFloat(s, 10)` -/
  ParseFloat : String → Except GoError Float64
  /-- Name check done by the metrics package when a series is first
  registered (it panics when the check fails) -/
  ValidateMetric : String → Bool
  /-- Call `template.New("").Parse(tmpl)` followed by `Execute` on the request's
  query parameters -/
  Template : List (String × String) → String → Except GoError String
  /-- Call `doHTTP(ctx, method, target, headers, body)`: the decoded JSON document -/
  doHTTP : String → String → List (String × String) → Option String → Except GoError Value

/-- Struct `Metric` of the configuration. `Labels` is a Go map; the list
gives its entries in the order one `range` over it visits them. -/
structure Metric where
  Query : JqExporter.Query
  Name : JqExporter.Query
  Labels : List (String × JqExporter.Query)
  ValueType : String
  Value : JqExporter.Query

/-- Struct `Module` of the configuration (`Body` holds `Body.Content`). -/
structure Module where
  Metrics : List Metric
  Body : String
  Headers : List (String × String)

/-- Struct `Config`: the modules by name. -/
structure Config where
  Modules : List (String × Module)

/-! ## Strings, formatting and parsing -/

/-- Go string comparison `a <= b` (lexicographic; code-point order and UTF-8
byte order agree). -/
def strLe (a b : String) : Prop := a.toList ≤ b.toList

instance strLeDecidable : DecidableRel strLe :=
  fun a b => inferInstanceAs (Decidable (a.toList ≤ b.toList))

/-- Function `slices.Sort` on a `[]string`. -/
def sortStrings (xs : List String) : List String := List.insertionSort strLe xs

/-- Order in which `fmt` prints the entries of a map: by key. -/
def fieldLe (a b : String × String) : Prop := a.1.toList ≤ b.1.toList

instance fieldLeDecidable : DecidableRel fieldLe :=
  fun a b => inferInstanceAs (Decidable (a.1.toList ≤ b.1.toList))

mutual
/-- Function `fmt.Sprint(v)` of a single operand. -/
def Sprint (L : Lib) : Value → String
  | .null => "<nil>"
  | .bool b => if b then "true" else "false"
  | .int i => toString i
  | .float f => L.FormatFloat f
  | .bigint i => toString i
  | .str s => s
  | .slice xs => "[" ++ String.intercalate " " (SprintList L xs) ++ "]"
  | .map kvs =>
      "map[" ++ String.intercalate " "
        ((List.insertionSort fieldLe (SprintFields L kvs)).map fun p => p.1 ++ ":" ++ p.2) ++ "]"
/-- The elements of a slice, each printed with `%v`. -/
def SprintList (L : Lib) : List Value → List String
  | [] => []
  | x :: xs => Sprint L x :: SprintList L xs
/-- The entries of a map, each value printed with `%v`. -/
def SprintFields (L : Lib) : List (String × Value) → List (String × String)
  | [] => []
  | (k, v) :: kvs => (k, Sprint L v) :: SprintFields L kvs
end

/-- Largest `uint64`. -/
def maxUint64 : Nat := 2 ^ 64 - 1

/-- The digit loop of `strconv.ParseUint(s, 10, 64)`: `n` is the value read
so far, `s0` the whole input (for the error). -/
def parseUintLoop (s0 : String) : List Char → Nat → Except GoError Nat
  | [], n => .ok n
  | c :: cs, n =>
      if '0' ≤ c ∧ c ≤ '9' then
        if n ≥ maxUint64 / 10 + 1 then .error (.rangeErr "ParseUint" s0)
        else
          let n1 := n * 10 + (c.toNat - '0'.toNat)
          if n1 > maxUint64 then .error (.rangeErr "ParseUint" s0)
          else parseUintLoop s0 cs n1
      else .error (.syntaxErr "ParseUint" s0)

/-- Function `strconv.ParseUint(s, 10, 64)`. -/
def ParseUint (s : String) : Except GoError Nat :=
  if s = "" then .error (.syntaxErr "ParseUint" s)
  else parseUintLoop s s.toList 0

/-- Conversion `uint64(v)` of a Go `int`: two's complement wrap-around. -/
def uint64OfInt (v : Int) : Nat := (v % 2 ^ 64).toNat

/-- Index of the highest set bit of `m`, for `m` below `2 ^ fuel`. -/
def topBit : Nat → Nat → Nat
  | 0, _ => 0
  | fuel + 1, m => if m < 2 then 0 else topBit fuel (m / 2) + 1

/-- Conversion `float64(v)` of a Go `int` (64 bits): the nearest binary64,
ties to even. -/
def float64OfInt (v : Int) : Float64 :=
  let m := v.natAbs
  if m = 0 then ⟨0⟩
  else
    let sign := if v < 0 then 2 ^ 63 else 0
    let e := topBit 64 m
    if e ≤ 52 then ⟨sign + (e + 1023) * 2 ^ 52 + (m * 2 ^ (52 - e) - 2 ^ 52)⟩
    else
      let shift := e - 52
      let q := m / 2 ^ shift
      let r := m % 2 ^ shift
      let half := 2 ^ (shift - 1)
      let q1 := if r > half ∨ (r = half ∧ q % 2 = 1) then q + 1 else q
      if q1 = 2 ^ 53 then ⟨sign + (e + 1 + 1023) * 2 ^ 52⟩
      else ⟨sign + (e + 1023) * 2 ^ 52 + (q1 - 2 ^ 52)⟩

/-! ## The query evaluator -/

/-- The `for` loop of `jq`: `result` is the variable of that name. -/
def jqLoop (query : Query) (fallback : Bool) : List Item → Value → Except GoError Value
  | [], result => .ok result
  | .val v :: rest, _ => jqLoop query fallback rest v
  | .err e :: _, result =>
      match e with
      | .halt .null => .ok result
      | _ => if fallback then .ok (.str query) else .error e

/-- Function `jq`: `(result, nil)` is `.ok result`, `(nil, err)` is
`.error err`. -/
def jq (L : Lib) (query : Query) (value : Value) (fallback : Bool) : Except GoError Value :=
  match L.Parse query with
  | some err => .error err
  | none => jqLoop query fallback (L.Run query value) .null

/-! ## Coercions -/

/-- Function `asCounterValue`. -/
def asCounterValue (L : Lib) : Value → Except GoError Nat
  | .int v => .ok (uint64OfInt v)
  | v => ParseUint (Sprint L v)

/-- Function `asGaugeValue`. -/
def asGaugeValue (L : Lib) : Value → Except GoError Float64
  | .int v => .ok (float64OfInt v)
  | .float v => .ok v
  | v => L.ParseFloat (Sprint L v)

/-- Function `asSlice`; `none` is the run-time panic of calling `Kind` on the
nil `reflect.Type` that `reflect.TypeOf(nil)` returns. -/
def asSlice : Value → Option (List Value)
  | .null => none
  | .slice xs => some xs
  | v => some [v]

/-- Function `asLabelValue`. -/
def asLabelValue (L : Lib) : Value → String
  | .bool lv => if lv then "true" else "false"
  | lv => Sprint L lv

/-! ## The label set builder -/

/-- One formatted pair, `fmt.Sprintf` with the format `%s="%s"`. -/
def formatLabel (labelName labelValue : String) : String :=
  labelName ++ "=\"" ++ labelValue ++ "\""

/-- The `range` loop of `makeLabelKV` over the entries in visiting order;
`labelKV` is the slice built so far. -/
def makeLabelKVLoop (L : Lib) (value : Value) :
    List (String × Query) → List String → Except GoError (List String)
  | [], labelKV => .ok labelKV
  | (labelName, labelQuery) :: rest, labelKV =>
      match jq L labelQuery value true with
      | .error err => .error err
      | .ok v => makeLabelKVLoop L value rest (labelKV ++ [formatLabel labelName (asLabelValue L v)])

/-- Function `makeLabelKV`: `(s, nil)` is `.ok s`, `("", err)` is
`.error err`. -/
def makeLabelKV (L : Lib) (labels : List (String × Query)) (value : Value) :
    Except GoError String :=
  match makeLabelKVLoop L value labels [] with
  | .error err => .error err
  | .ok labelKV => .ok (String.intercalate "," (sortStrings labelKV))

/-- The string a Go caller receives from `makeLabelKV` (the empty string
next to an error). -/
def returnedString : Except GoError String → String
  | .ok s => s
  | .error _ => ""

/-! ## The metric registry (package VictoriaMetrics/metrics) -/

/-- A registered series: a counter holding `n`, or a gauge whose callback
returns `f`. -/
inductive Series where
  | counter (n : Nat)
  | gauge (f : Float64)
deriving DecidableEq, Repr

/-- The default set of the metrics package: the registered series by name,
in registration order. -/
abbrev Registry := List (String × Series)

/-- Result of a call that may return normally, return an error, or panic. -/
inductive Outcome (α : Type) where
  | ok (a : α)
  | err (e : GoError)
  | panic

/-- Statement `metrics.GetOrCreateCounter(name).Set(n)`. The package returns
the counter registered under `name`, panics when `name` holds another kind of
metric, and otherwise checks the name and registers a new counter; `Set`
then stores `n`. `none` is the panic. -/
def setCounter (L : Lib) (reg : Registry) (name : String) (n : Nat) : Option Registry :=
  match reg.lookup name with
  | some (.counter _) => some (reg.map fun p => if p.1 = name then (name, Series.counter n) else p)
  | some (.gauge _) => none
  | none => if L.ValidateMetric name then some (reg ++ [(name, Series.counter n)]) else none

/-- Statement `metrics.GetOrCreateGauge(name, func() float64 { return f })`.
The package returns the gauge already registered under `name` as it is (the
callback passed now is dropped), panics when `name` holds another kind of
metric, and otherwise checks the name and registers a new gauge with the
callback. `none` is the panic. -/
def getOrCreateGauge (L : Lib) (reg : Registry) (name : String) (f : Float64) : Option Registry :=
  match reg.lookup name with
  | some (.gauge _) => some reg
  | some (.counter _) => none
  | none => if L.ValidateMetric name then some (reg ++ [(name, Series.gauge f)]) else none

/-- Value a gauge reports (`Gauge.Get`): what its callback returns. -/
def readGauge (reg : Registry) (name : String) : Option Float64 :=
  match reg.lookup name with
  | some (.gauge f) => some f
  | _ => none

/-! ## The metric assembler -/

/-- The Metric Identity string that `makeMetrics` builds in `name`. -/
def metricName (L : Lib) (value : Value) (m : Metric) : Except GoError String :=
  match jq L m.Name value true with
  | .error err => .error err
  | .ok nameResult =>
      match makeLabelKV L m.Labels value with
      | .error err => .error err
      | .ok labelKV => .ok (Sprint L nameResult ++ "\x7b" ++ labelKV ++ "\x7d")

/-- Function `makeMetrics`, with the registry it writes to made explicit:
`.ok reg` is a `nil` return with the registry left as `reg`; an error or a
panic leaves the registry as it was. -/
def makeMetrics (L : Lib) (reg : Registry) (value : Value) (m : Metric) : Outcome Registry :=
  match metricName L value m with
  | .error err => .err err
  | .ok name =>
      match jq L m.Value value false with
      | .error err => .err err
      | .ok v =>
          if m.ValueType = "counter" then
            match asCounterValue L v with
            | .error err => .err err
            | .ok counterValue =>
                match setCounter L reg name counterValue with
                | some reg1 => .ok reg1
                | none => .panic
          else if m.ValueType = "gauge" then
            match asGaugeValue L v with
            | .error err => .err err
            | .ok gaugeValue =>
                match getOrCreateGauge L reg name gaugeValue with
                | some reg1 => .ok reg1
                | none => .panic
          else .err (.unsupported m.ValueType)

/-! ## The probe handler -/

/-- State a probe works on: the registry, and (as a record for the
statements below) the `makeMetrics` calls made so far, oldest first. -/
structure ProbeState where
  reg : Registry
  calls : List (Value × Metric)

/-- How a loop of the handler was left. -/
inductive Flow where
  /-- The loop ran to its end -/
  | next
  /-- Statements `slog.Error(err.Error()); return` -/
  | ret (e : GoError)
  /-- A run-time panic -/
  | panic

/-- The inner loop of `handleProbe`, `for _, value := range values`. -/
def valuesLoop (L : Lib) (m : Metric) : List Value → ProbeState → ProbeState × Flow
  | [], st => (st, .next)
  | value :: rest, st =>
      match makeMetrics L st.reg value m with
      | .ok reg1 => valuesLoop L m rest ⟨reg1, st.calls ++ [(value, m)]⟩
      | .err e => (⟨st.reg, st.calls ++ [(value, m)]⟩, .ret e)
      | .panic => (⟨st.reg, st.calls ++ [(value, m)]⟩, .panic)

/-- The handler from `values := asSlice(value)` to the end of the inner
loop. -/
def fanOut (L : Lib) (m : Metric) (value : Value) (st : ProbeState) : ProbeState × Flow :=
  match asSlice value with
  | none => (st, .panic)
  | some values => valuesLoop L m values st

/-- The body of the outer loop of `handleProbe` for one metric `m`. -/
def metricStep (L : Lib) (bodyJSON : Value) (m : Metric) (st : ProbeState) : ProbeState × Flow :=
  if m.Query = "" then fanOut L m bodyJSON st
  else
    match jq L m.Query bodyJSON false with
    | .error err => (st, .ret err)
    | .ok value => fanOut L m value st

/-- The outer loop of `handleProbe`, `for _, m := range mod.Metrics`. -/
def metricsLoop (L : Lib) (bodyJSON : Value) : List Metric → ProbeState → ProbeState × Flow
  | [], st => (st, .next)
  | m :: rest, st =>
      match metricStep L bodyJSON m st with
      | (st1, .next) => metricsLoop L bodyJSON rest st1
      | (st1, flow) => (st1, flow)

/-- What the handler did with the response. -/
inductive Response where
  /-- Call `metrics.WritePrometheus(w, false)`: the series of the registry were
  rendered into the body -/
  | metrics (series : Registry)
  /-- The handler returned after `slog.Warn(msg)`, nothing written -/
  | warned (msg : String)
  /-- The handler returned after `slog.Error(err.Error())`, nothing written -/
  | failed (e : GoError)
  /-- The handler panicked, nothing written -/
  | panicked

/-- Method `Get` of `url.Values`: the first value of the key, or `""`. -/
def queryGet (q : List (String × String)) (key : String) : String :=
  (q.lookup key).getD ""

/-- Function `makeBodyFromTemplate`. -/
def makeBodyFromTemplate (L : Lib) (data : List (String × String)) (tmplString : String) :
    Except GoError (Option String) :=
  if tmplString = "" then .ok none
  else
    match L.Template data tmplString with
    | .error err => .error err
    | .ok buf => .ok (some buf)

/-- The handler returned by `handleProbe(cfg)`, run on a request with query
parameters `q` while the registry holds `reg`. -/
def handleProbe (L : Lib) (cfg : Config) (q : List (String × String)) (reg : Registry) :
    ProbeState × Response :=
  let module := queryGet q "module"
  if module = "" then (⟨reg, []⟩, .warned "no module found in query")
  else
    match cfg.Modules.lookup module with
    | none => (⟨reg, []⟩, .warned "no module found in config")
    | some mod =>
        let target := queryGet q "target"
        if target = "" then (⟨reg, []⟩, .warned "no target found in query")
        else
          let method := if queryGet q "method" = "" then "GET" else queryGet q "method"
          match makeBodyFromTemplate L q mod.Body with
          | .error err => (⟨reg, []⟩, .failed err)
          | .ok body =>
              match L.doHTTP method target mod.Headers body with
              | .error err => (⟨reg, []⟩, .failed err)
              | .ok bodyJSON =>
                  match metricsLoop L bodyJSON mod.Metrics ⟨reg, []⟩ with
                  | (st, .next) => (st, .metrics st.reg)
                  | (st, .ret e) => (st, .failed e)
                  | (st, .panic) => (st, .panicked)

/-! ## A concrete environment

The statements below hold for every `Lib`. To evaluate the program on
concrete inputs one environment is fixed here. Its query engine knows six
queries and answers them as gojq does; its float routines know the two
numbers of the sample document, and no evaluation in this file reaches
them. -/

/-- Items gojq yields for the queries of the sample environment: identity,
the integer literals `1` and `2`, the comma streams `1, 2` and `1, null`, and
the undefined function `up`, which fails when the query is compiled at the
start of the run. -/
def sampleRun (query : Query) (value : Value) : List Item :=
  if query = "." then [.val value]
  else if query = "1" then [.val (.int 1)]
  else if query = "2" then [.val (.int 2)]
  else if query = "1, 2" then [.val (.int 1), .val (.int 2)]
  else if query = "1, null" then [.val (.int 1), .val .null]
  else if query = "up" then [.err (.query "function not defined: up/0")]
  else []

/-- Parse result for the sample environment: its six queries parse; no
other query is used. -/
def sampleParse (query : Query) : Option GoError :=
  if query = "." ∨ query = "1" ∨ query = "2" ∨ query = "1, 2" ∨ query = "1, null"
      ∨ query = "up" then none
  else some (.query ("unexpected token in " ++ query))

/-- Characters of an identifier of the metrics package; `first` tells
whether digits are excluded. -/
def identChar (first : Bool) (c : Char) : Bool :=
  c.isAlpha || c = '_' || c = ':' || c = '.' || (!first && c.isDigit)

/-- An identifier of the metrics package. -/
def validIdent : List Char → Bool
  | [] => false
  | c :: cs => identChar true c && cs.all (identChar false)

/-- Scan of a quoted tag value up to its closing quote: the rest after the
quote, or `none` when the quote is missing. `odd` tells whether an odd number
of backslashes comes right before the current position. -/
def scanTagValue (odd : Bool) : List Char → Option (List Char)
  | [] => none
  | c :: cs =>
      if c = '"' then (if odd then scanTagValue false cs else some cs)
      else if c = '\\' then scanTagValue (!odd) cs
      else scanTagValue false cs

/-- The tag list between the braces of a metric name: `ident="value"` items
separated by commas. -/
def validTags : Nat → List Char → Bool
  | 0, _ => false
  | fuel + 1, cs =>
      match cs.span (fun c => c ≠ '=') with
      | (_, []) => false
      | (ident, _ :: afterEq) =>
          validIdent ident &&
            match afterEq with
            | [] => false
            | c :: afterQuote =>
                c = '"' &&
                  match scanTagValue false afterQuote with
                  | none => false
                  | some [] => true
                  | some (d :: more) => d = ',' && validTags fuel (more.dropWhile (fun x => x = ' '))

/-- Name check of the sample environment: an identifier, optionally followed
by a brace-enclosed tag list. -/
def sampleValidateMetric (name : String) : Bool :=
  match name.toList.span (fun c => c ≠ '\x7b') with
  | (ident, []) => validIdent ident
  | (ident, _ :: rest) =>
      validIdent ident && rest.getLast? = some '\x7d' &&
        (rest.dropLast.isEmpty || validTags rest.length rest.dropLast)

/-- The document the sample retrieval returns: the JSON text `[1, 2]`
decoded by `json.Unmarshal` (numbers become float64). -/
def sampleDocument : Value :=
  .slice [.float ⟨0x3FF0000000000000⟩, .float ⟨0x4000000000000000⟩]

/-- The sample environment. -/
def sampleLib : Lib where
  Parse := sampleParse
  Run := sampleRun
  FormatFloat := fun f =>
    if f.bits = 0x3FF0000000000000 then "1"
    else if f.bits = 0x4000000000000000 then "2"
    else "NaN"
  ParseFloat := fun s =>
    if s = "1" then .ok ⟨0x3FF0000000000000⟩
    else if s = "2" then .ok ⟨0x4000000000000000⟩
    else .error (.syntaxErr "ParseFloat" s)
  ValidateMetric := sampleValidateMetric
  Template := fun _ tmpl => .ok tmpl
  doHTTP := fun _ target _ _ =>
    if target = "file://testdata/pair.json" then .ok sampleDocument
    else .error (.external ("open " ++ target))

/-! ## Definitions used by the statements -/

/-- Two results of the label loop agree up to the order of the pairs: both
are errors, or both are slices holding the same pairs. -/
def SamePairs (r1 r2 : Except GoError (List String)) : Prop :=
  (∃ e1 e2, r1 = .error e1 ∧ r2 = .error e2) ∨
    (∃ l1 l2, r1 = .ok l1 ∧ r2 = .ok l2 ∧ l1.Perm l2)

/-- Escaping of a label value as the specification words it (not what the
program does): a backslash is put before every double quote and every
backslash. -/
def specEscape (s : String) : String :=
  String.join (s.toList.map fun c =>
    if c = '"' then "\\\"" else if c = '\\' then "\\\\" else String.singleton c)

/-- Registry obtained from `reg` by the given `makeMetrics` calls, in order;
a call that does not return `nil` writes nothing. -/
def replay (L : Lib) : Registry → List (Value × Metric) → Registry
  | reg, [] => reg
  | reg, (value, m) :: rest =>
      match makeMetrics L reg value m with
      | .ok reg1 => replay L reg1 rest
      | _ => replay L reg rest

/-- Whether every call of the list returns `nil` when the calls are made in
order, the first one on the registry `reg`. -/
def allOk (L : Lib) : Registry → List (Value × Metric) → Bool
  | _, [] => true
  | reg, (value, m) :: rest =>
      match makeMetrics L reg value m with
      | .ok reg1 => allOk L reg1 rest
      | _ => false

/-- The selection result of a metric, as the outer loop of `handleProbe`
computes it before `asSlice`: the document for an empty selection query,
otherwise `jq` on the document without fallback. -/
def selectValue (L : Lib) (bodyJSON : Value) (m : Metric) : Except GoError Value :=
  if m.Query = "" then .ok bodyJSON else jq L m.Query bodyJSON false

/-- The `makeMetrics` calls the metric definitions `ms` ask for, in order:
for each definition one call per element of `asSlice` of its selection
result. `none` when a selection fails or `asSlice` panics. -/
def plannedCalls (L : Lib) (bodyJSON : Value) : List Metric → Option (List (Value × Metric))
  | [] => some []
  | m :: rest =>
      match selectValue L bodyJSON m with
      | .error _ => none
      | .ok r =>
          match asSlice r with
          | none => none
          | some values =>
              match plannedCalls L bodyJSON rest with
              | none => none
              | some cs => some (values.map (fun v => (v, m)) ++ cs)

/-- A sample metric without selection query and labels, named by the
literal `up`. -/
def sampleMetric (valueType : String) (valueQuery : Query) : Metric :=
  ⟨"", "up", [], valueType, valueQuery⟩

/-- A sample configuration: module `m` with a gauge followed by a metric of
the unsupported kind `histogram`. -/
def sampleConfig : Config :=
  ⟨[("m", ⟨[sampleMetric "gauge" "1", sampleMetric "histogram" "1"], "", []⟩)]⟩

/-- The query parameters of a sample probe request. -/
def sampleRequest : List (String × String) :=
  [("module", "m"), ("target", "file://testdata/pair.json")]

/-! ## Ordering facts -/

instance strLe_total : IsTotal String strLe := ⟨fun a b => le_total a.toList b.toList⟩

instance strLe_trans : IsTrans String strLe := ⟨fun _ _ _ h1 h2 => le_trans h1 h2⟩

instance strLe_antisymm : IsAntisymm String strLe :=
  ⟨fun a b h1 h2 => by
    have h : a.toList = b.toList := le_antisymm h1 h2
    exact String.ext h⟩

theorem sortStrings_perm {xs ys : List String} (h : xs.Perm ys) :
    sortStrings xs = sortStrings ys := by
  unfold sortStrings
  apply List.eq_of_perm_of_sorted (r := strLe)
  · exact (List.perm_insertionSort strLe xs).trans (h.trans (List.perm_insertionSort strLe ys).symm)
  · exact List.sorted_insertionSort strLe xs
  · exact List.sorted_insertionSort strLe ys


/-! ## The label set builder -/

theorem SamePairs.trans {r1 r2 r3 : Except GoError (List String)}
    (h12 : SamePairs r1 r2) (h23 : SamePairs r2 r3) : SamePairs r1 r3 := by
  rcases h12 with ⟨e1, e2, h1, h2⟩ | ⟨l1, l2, h1, h2, hp⟩
  · rcases h23 with ⟨e2', e3, h2', h3⟩ | ⟨l2', l3, h2', h3, hp'⟩
    · exact Or.inl ⟨e1, e3, h1, h3⟩
    · rw [h2] at h2'; cases h2'
  · rcases h23 with ⟨e2', e3, h2', h3⟩ | ⟨l2', l3, h2', h3, hp'⟩
    · rw [h2] at h2'; cases h2'
    · rw [h2] at h2'; cases h2'
      exact Or.inr ⟨l1, l3, h1, h3, hp.trans hp'⟩

theorem makeLabelKVLoop_acc (L : Lib) (value : Value) (labels : List (String × Query)) :
    ∀ acc1 acc2 : List String, acc1.Perm acc2 →
      SamePairs (makeLabelKVLoop L value labels acc1) (makeLabelKVLoop L value labels acc2) := by
  induction labels with
  | nil =>
      intro acc1 acc2 h
      exact Or.inr ⟨acc1, acc2, rfl, rfl, h⟩
  | cons p rest ih =>
      intro acc1 acc2 h
      obtain ⟨labelName, labelQuery⟩ := p
      simp only [makeLabelKVLoop]
      cases hjq : jq L labelQuery value true with
      | error e => exact Or.inl ⟨e, e, rfl, rfl⟩
      | ok v => exact ih _ _ (List.Perm.append_right _ h)

theorem makeLabelKVLoop_perm (L : Lib) (value : Value) {labels1 labels2 : List (String × Query)}
    (h : labels1.Perm labels2) :
    ∀ acc1 acc2 : List String, acc1.Perm acc2 →
      SamePairs (makeLabelKVLoop L value labels1 acc1) (makeLabelKVLoop L value labels2 acc2) := by
  induction h with
  | nil =>
      intro acc1 acc2 hacc
      exact Or.inr ⟨acc1, acc2, rfl, rfl, hacc⟩
  | cons p _ ih =>
      intro acc1 acc2 hacc
      obtain ⟨labelName, labelQuery⟩ := p
      simp only [makeLabelKVLoop]
      cases hjq : jq L labelQuery value true with
      | error e => exact Or.inl ⟨e, e, rfl, rfl⟩
      | ok v => exact ih _ _ (List.Perm.append_right _ hacc)
  | swap p1 p2 l =>
      intro acc1 acc2 hacc
      obtain ⟨n1, q1⟩ := p1
      obtain ⟨n2, q2⟩ := p2
      simp only [makeLabelKVLoop]
      cases h1 : jq L q1 value true with
      | error e1 =>
          cases h2 : jq L q2 value true with
          | error e2 => exact Or.inl ⟨e2, e1, rfl, rfl⟩
          | ok v2 => exact Or.inl ⟨e1, e1, rfl, rfl⟩
      | ok v1 =>
          cases h2 : jq L q2 value true with
          | error e2 => exact Or.inl ⟨e2, e2, rfl, rfl⟩
          | ok v2 =>
              apply makeLabelKVLoop_acc
              simp only [List.append_assoc]
              exact List.Perm.append hacc (List.Perm.swap _ _ _)
  | trans _ _ ih1 ih2 =>
      intro acc1 acc2 hacc
      exact SamePairs.trans (ih1 acc1 acc2 hacc) (ih2 acc2 acc2 (List.Perm.refl _))

/-- C1. The string `makeLabelKV` returns does not depend on the order in
which the label mapping is iterated: for two orderings of the same entries
the returned strings are equal, and one call succeeds exactly when the other
does, with the same sorted, comma-joined pairs. -/
theorem makeLabelKV_order_invariant (L : Lib) (labels1 labels2 : List (String × Query))
    (value : Value) (h : labels1.Perm labels2) :
    returnedString (makeLabelKV L labels1 value) = returnedString (makeLabelKV L labels2 value) ∧
      (makeLabelKV L labels1 value).toOption = (makeLabelKV L labels2 value).toOption := by
  have hs := makeLabelKVLoop_perm L value h [] [] (List.Perm.refl _)
  unfold makeLabelKV
  rcases hs with ⟨e1, e2, h1, h2⟩ | ⟨l1, l2, h1, h2, hp⟩
  · rw [h1, h2]
    exact ⟨rfl, rfl⟩
  · rw [h1, h2]
    simp only [sortStrings_perm hp, and_self]

theorem makeLabelKV_order_invariant_witness :
    [("b", "2"), ("a", "1")].Perm [("a", "1"), ("b", "2")] ∧
      (returnedString (makeLabelKV sampleLib [("b", "2"), ("a", "1")] .null)
          = returnedString (makeLabelKV sampleLib [("a", "1"), ("b", "2")] .null) ∧
        (makeLabelKV sampleLib [("b", "2"), ("a", "1")] .null).toOption
          = (makeLabelKV sampleLib [("a", "1"), ("b", "2")] .null).toOption) :=
  ⟨List.Perm.swap _ _ _,
    makeLabelKV_order_invariant sampleLib _ _ .null (List.Perm.swap _ _ _)⟩

theorem makeLabelKVLoop_ok (L : Lib) (value : Value) (ev : String × Query → Value)
    (labels : List (String × Query))
    (hev : ∀ p ∈ labels, jq L p.2 value true = .ok (ev p)) :
    ∀ acc : List String,
      makeLabelKVLoop L value labels acc
        = .ok (acc ++ labels.map fun p => p.1 ++ "=\"" ++ asLabelValue L (ev p) ++ "\"") := by
  induction labels with
  | nil => intro acc; simp [makeLabelKVLoop]
  | cons p rest ih =>
      intro acc
      obtain ⟨labelName, labelQuery⟩ := p
      have h0 := hev (labelName, labelQuery) (List.mem_cons_self _ _)
      simp only at h0
      simp only [makeLabelKVLoop, h0]
      rw [ih (fun q hq => hev q (List.mem_cons_of_mem _ hq))]
      simp [formatLabel]

/-- C2 (amended). For label queries that evaluate (with fallback) to the
values `ev p`, `makeLabelKV` returns the sorted, comma-joined pairs
`name="s"` in which `s` is `asLabelValue` of the value, copied as it is: no
character of the value is escaped. -/
theorem makeLabelKV_pairs_verbatim (L : Lib) (value : Value) (ev : String × Query → Value)
    (labels : List (String × Query))
    (hev : ∀ p ∈ labels, jq L p.2 value true = .ok (ev p)) :
    makeLabelKV L labels value
      = .ok (String.intercalate ","
          (sortStrings (labels.map fun p => p.1 ++ "=\"" ++ asLabelValue L (ev p) ++ "\""))) := by
  unfold makeLabelKV
  rw [makeLabelKVLoop_ok L value ev labels hev []]
  simp

theorem makeLabelKV_pairs_verbatim_witness :
    (∀ p ∈ [("a", ".")], jq sampleLib p.2 (.str "x\"y\\z") true = .ok (.str "x\"y\\z")) ∧
      makeLabelKV sampleLib [("a", ".")] (.str "x\"y\\z") = .ok "a=\"x\"y\\z\"" :=
  ⟨fun p hp => by
      rw [List.mem_singleton] at hp
      subst hp
      rfl,
    makeLabelKV_pairs_verbatim sampleLib (.str "x\"y\\z") (fun _ => .str "x\"y\\z") [("a", ".")]
      (fun p hp => by
        rw [List.mem_singleton] at hp
        subst hp
        rfl)⟩

/-- C2 (counterexample). For the label `a` with query `.` and the string
value `x"y`, the pair is `a="x"y"`, with the quote left as it is, and not
`a="x\"y"`; and the label set with the single value `1",b="2` serializes to
the same string as the two labels `a="1"` and `b="2"`. -/
theorem makeLabelKV_does_not_escape :
    makeLabelKV sampleLib [("a", ".")] (.str "x\"y") = .ok "a=\"x\"y\"" ∧
      makeLabelKV sampleLib [("a", ".")] (.str "x\"y")
        ≠ .ok (formatLabel "a" (specEscape "x\"y")) ∧
      makeLabelKV sampleLib [("a", ".")] (.str "1\",b=\"2")
        = makeLabelKV sampleLib [("a", "1"), ("b", "2")] (.str "1\",b=\"2") := by
  refine ⟨rfl, ?_, rfl⟩
  intro h
  have h1 : ("a=\"x\"y\"" : String) = formatLabel "a" (specEscape "x\"y") := Except.ok.inj h
  revert h1
  decide

/-- C3 (the code at the failing input). For a Go `int` the counter coercion
never fails: it returns `uint64(v)`, so the integer `-1` yields
18446744073709551615 and no error, while the strings `abc`, `12.5` and `-1`
are rejected by `ParseUint`. -/
theorem asCounterValue_negative_int (L : Lib) :
    (∀ v : Int, asCounterValue L (.int v) = .ok (uint64OfInt v)) ∧
      asCounterValue L (.int (-1)) = .ok 18446744073709551615 ∧
      asCounterValue L (.str "abc") = .error (.syntaxErr "ParseUint" "abc") ∧
      asCounterValue L (.str "12.5") = .error (.syntaxErr "ParseUint" "12.5") ∧
      asCounterValue L (.str "-1") = .error (.syntaxErr "ParseUint" "-1") :=
  ⟨fun _ => rfl, rfl, rfl, rfl, rfl⟩

/-! ## The query evaluator -/

theorem jqLoop_values (query : Query) (fallback : Bool) (vs : List Value) (rest : List Item) :
    ∀ result : Value,
      jqLoop query fallback (vs.map Item.val ++ rest) result
        = jqLoop query fallback rest (vs.getLast?.getD result) := by
  induction vs with
  | nil => intro result; rfl
  | cons v more ih =>
      intro result
      have hstep : jqLoop query fallback ((v :: more).map Item.val ++ rest) result
          = jqLoop query fallback (more.map Item.val ++ rest) v := rfl
      rw [hstep, ih v]
      cases more with
      | nil => rfl
      | cons w more2 =>
          obtain ⟨x, hx⟩ : ∃ x, (w :: more2).getLast? = some x :=
            ⟨_, List.getLast?_eq_getLast _ (List.cons_ne_nil _ _)⟩
          rw [List.getLast?_cons_cons, hx]
          rfl

theorem jqLoop_fault (query : Query) (fallback : Bool) (e : GoError) (rest : List Item)
    (result : Value) (he : e ≠ .halt .null) :
    jqLoop query fallback (.err e :: rest) result
      = if fallback then .ok (.str query) else .error e := by
  unfold jqLoop
  split
  · exact absurd rfl he
  · rfl

/-- C6. For a query that parses and whose program yields the values `vs`
and then a fault `e` other than a halt without value (its first error item),
`jq` with `fallback = true` returns the query string itself and no error,
and `jq` with `fallback = false` returns `e` as its error and no result:
whatever was emitted before or would come after the fault. -/
theorem jq_fault (L : Lib) (query : Query) (value : Value) (vs : List Value) (e : GoError)
    (rest : List Item) (hparse : L.Parse query = none)
    (hrun : L.Run query value = vs.map Item.val ++ .err e :: rest)
    (he : e ≠ .halt .null) :
    jq L query value true = .ok (.str query) ∧ jq L query value false = .error e := by
  unfold jq
  rw [hparse, hrun]
  simp only [jqLoop_values, jqLoop_fault _ _ _ _ _ he]
  exact ⟨rfl, rfl⟩

theorem jq_fault_witness :
    (sampleLib.Parse "up" = none ∧
      sampleLib.Run "up" (.int 7)
        = ([] : List Value).map Item.val ++ .err (.query "function not defined: up/0") :: [] ∧
      GoError.query "function not defined: up/0" ≠ .halt .null) ∧
    (jq sampleLib "up" (.int 7) true = .ok (.str "up") ∧
      jq sampleLib "up" (.int 7) false = .error (.query "function not defined: up/0")) :=
  ⟨⟨rfl, rfl, fun h => GoError.noConfusion h⟩,
    jq_fault sampleLib "up" (.int 7) [] (.query "function not defined: up/0") [] rfl rfl
      (fun h => GoError.noConfusion h)⟩

theorem jq_values (L : Lib) (query : Query) (value : Value) (vs : List Value)
    (fallback : Bool) (hparse : L.Parse query = none)
    (hrun : L.Run query value = vs.map Item.val) :
    jq L query value fallback = .ok (vs.getLast?.getD .null) := by
  unfold jq
  rw [hparse, hrun]
  have h := jqLoop_values query fallback vs [] .null
  rw [List.append_nil] at h
  simp only [h]
  rfl

/-- C7. For a query that parses and whose program yields the values
`v1 .. vn` and then ends, or then raises a halt without value (followed by
anything), `jq` returns `vn` and no error, `nil` when `n = 0`, whatever the
fallback flag. -/
theorem jq_last_value (L : Lib) (query : Query) (value : Value) (vs : List Value)
    (rest : List Item) (fallback : Bool) (hparse : L.Parse query = none)
    (hrun : L.Run query value = vs.map Item.val ∨
      L.Run query value = vs.map Item.val ++ .err (.halt .null) :: rest) :
    jq L query value fallback = .ok (vs.getLast?.getD .null) := by
  rcases hrun with h | h
  · exact jq_values L query value vs fallback hparse h
  · unfold jq
    rw [hparse, h]
    simp only [jqLoop_values]
    rfl

theorem jq_last_value_witness :
    (sampleLib.Parse "1, 2" = none ∧
      (sampleLib.Run "1, 2" .null = [Value.int 1, Value.int 2].map Item.val ∨
        sampleLib.Run "1, 2" .null
          = [Value.int 1, Value.int 2].map Item.val ++ .err (.halt .null) :: [])) ∧
    jq sampleLib "1, 2" .null false = .ok (.int 2) :=
  ⟨⟨rfl, Or.inl rfl⟩,
    jq_last_value sampleLib "1, 2" .null [.int 1, .int 2] [] false rfl (Or.inl rfl)⟩

/-! ## The registry and the metric assembler -/

theorem getOrCreateGauge_registered (L : Lib) (reg : Registry) (name : String)
    (old f : Float64) (h : reg.lookup name = some (.gauge old)) :
    getOrCreateGauge L reg name f = some reg := by
  unfold getOrCreateGauge
  rw [h]

/-- C4 (the code at the failing input). A first `makeMetrics` call for the
gauge `up` with value 1 registers it; a later call for the same identity
with value 2 returns `nil` and leaves the registry as it was, so the gauge
still reads 1 and not the newly coerced 2: `GetOrCreateGauge` hands back the
gauge registered before, with its old callback. The counter branch on the
same inputs does overwrite, through `Set`. -/
theorem makeMetrics_gauge_not_overwritten :
    makeMetrics sampleLib [] .null (sampleMetric "gauge" "1")
        = .ok [("up\x7b\x7d", .gauge (float64OfInt 1))] ∧
      makeMetrics sampleLib [("up\x7b\x7d", .gauge (float64OfInt 1))] .null
          (sampleMetric "gauge" "2")
        = .ok [("up\x7b\x7d", .gauge (float64OfInt 1))] ∧
      jq sampleLib "2" .null false = .ok (.int 2) ∧
      asGaugeValue sampleLib (.int 2) = .ok (float64OfInt 2) ∧
      readGauge [("up\x7b\x7d", .gauge (float64OfInt 1))] "up\x7b\x7d" = some (float64OfInt 1) ∧
      float64OfInt 1 ≠ float64OfInt 2 ∧
      makeMetrics sampleLib [("up\x7b\x7d", .counter 1)] .null (sampleMetric "counter" "2")
        = .ok [("up\x7b\x7d", .counter 2)] := by
  refine ⟨rfl, rfl, rfl, rfl, rfl, ?_, rfl⟩
  decide

/-! ## The probe handler -/

theorem replay_append (L : Lib) (cs1 cs2 : List (Value × Metric)) :
    ∀ reg : Registry, replay L reg (cs1 ++ cs2) = replay L (replay L reg cs1) cs2 := by
  induction cs1 with
  | nil => intro reg; rfl
  | cons c rest ih =>
      intro reg
      obtain ⟨value, m⟩ := c
      simp only [List.cons_append, replay]
      cases makeMetrics L reg value m with
      | ok reg1 => exact ih reg1
      | err e => exact ih reg
      | panic => exact ih reg

theorem replay_ok (L : Lib) (reg reg1 : Registry) (value : Value) (m : Metric)
    (cs : List (Value × Metric)) (h : makeMetrics L reg value m = .ok reg1) :
    replay L reg ((value, m) :: cs) = replay L reg1 cs := by
  simp only [replay, h]

theorem replay_not_ok (L : Lib) (reg : Registry) (value : Value) (m : Metric)
    (cs : List (Value × Metric)) (h : ∀ reg1, makeMetrics L reg value m ≠ .ok reg1) :
    replay L reg ((value, m) :: cs) = replay L reg cs := by
  cases hm : makeMetrics L reg value m with
  | ok reg1 => exact absurd hm (h reg1)
  | err e => simp only [replay, hm]
  | panic => simp only [replay, hm]

/-- The inner loop, described: either it runs to its end, having called
`makeMetrics` on every element in order, or it stops at the first element
`v` on which `makeMetrics` does not return `nil`, having called it on the
elements up to and including `v`. -/
theorem valuesLoop_spec (L : Lib) (m : Metric) (values : List Value) :
    ∀ st : ProbeState,
      ((valuesLoop L m values st).2 = .next ∧
        (valuesLoop L m values st).1.calls = st.calls ++ values.map (fun v => (v, m)) ∧
        (valuesLoop L m values st).1.reg = replay L st.reg (values.map (fun v => (v, m)))) ∨
      (∃ pre v post, values = pre ++ v :: post ∧
        (valuesLoop L m values st).2 ≠ .next ∧
        (valuesLoop L m values st).1.calls = st.calls ++ (pre ++ [v]).map (fun v => (v, m)) ∧
        (∀ reg1, makeMetrics L (replay L st.reg (pre.map (fun v => (v, m)))) v m ≠ .ok reg1) ∧
        (valuesLoop L m values st).1.reg = replay L st.reg (pre.map (fun v => (v, m)))) := by
  induction values with
  | nil => intro st; exact Or.inl ⟨rfl, by simp [valuesLoop], rfl⟩
  | cons v rest ih =>
      intro st
      cases hm : makeMetrics L st.reg v m with
      | ok reg1 =>
          have hstep : valuesLoop L m (v :: rest) st
              = valuesLoop L m rest ⟨reg1, st.calls ++ [(v, m)]⟩ := by
            simp only [valuesLoop, hm]
          rw [hstep]
          rcases ih ⟨reg1, st.calls ++ [(v, m)]⟩ with ⟨h1, h2, h3⟩ | ⟨pre, w, post, h0, h1, h2, h3, h4⟩
          · refine Or.inl ⟨h1, ?_, ?_⟩
            · rw [h2]; simp
            · rw [h3, List.map_cons, replay_ok L _ _ _ _ _ hm]
          · refine Or.inr ⟨v :: pre, w, post, by rw [h0]; rfl, h1, ?_, ?_, ?_⟩
            · rw [h2]; simp
            · intro reg2
              rw [List.map_cons, replay_ok L _ _ _ _ _ hm]
              exact h3 reg2
            · rw [h4, List.map_cons, replay_ok L _ _ _ _ _ hm]
      | err e =>
          have hstep : valuesLoop L m (v :: rest) st
              = (⟨st.reg, st.calls ++ [(v, m)]⟩, .ret e) := by
            simp only [valuesLoop, hm]
          rw [hstep]
          refine Or.inr ⟨[], v, rest, rfl, fun h => Flow.noConfusion h, rfl, ?_, rfl⟩
          intro reg1 h
          have h2 : makeMetrics L st.reg v m = .ok reg1 := h
          rw [hm] at h2
          exact Outcome.noConfusion h2
      | panic =>
          have hstep : valuesLoop L m (v :: rest) st
              = (⟨st.reg, st.calls ++ [(v, m)]⟩, .panic) := by
            simp only [valuesLoop, hm]
          rw [hstep]
          refine Or.inr ⟨[], v, rest, rfl, fun h => Flow.noConfusion h, rfl, ?_, rfl⟩
          intro reg1 h
          have h2 : makeMetrics L st.reg v m = .ok reg1 := h
          rw [hm] at h2
          exact Outcome.noConfusion h2

theorem allOk_cons_ok (L : Lib) (reg reg1 : Registry) (value : Value) (m : Metric)
    (cs : List (Value × Metric)) (h : makeMetrics L reg value m = .ok reg1) :
    allOk L reg ((value, m) :: cs) = allOk L reg1 cs := by
  simp only [allOk, h]

theorem allOk_cons_true (L : Lib) (reg : Registry) (value : Value) (m : Metric)
    (cs : List (Value × Metric)) (h : allOk L reg ((value, m) :: cs) = true) :
    ∃ reg1, makeMetrics L reg value m = .ok reg1 ∧ allOk L reg1 cs = true := by
  cases hm : makeMetrics L reg value m with
  | ok reg1 =>
      rw [allOk_cons_ok L _ _ _ _ _ hm] at h
      exact ⟨reg1, rfl, h⟩
  | err e => simp [allOk, hm] at h
  | panic => simp [allOk, hm] at h

theorem allOk_append (L : Lib) (cs1 cs2 : List (Value × Metric)) :
    ∀ reg : Registry, allOk L reg (cs1 ++ cs2) = true →
      allOk L reg cs1 = true ∧ allOk L (replay L reg cs1) cs2 = true := by
  induction cs1 with
  | nil => intro reg h; exact ⟨rfl, h⟩
  | cons c rest ih =>
      intro reg h
      obtain ⟨value, m⟩ := c
      obtain ⟨reg1, hm, hrest⟩ := allOk_cons_true L reg value m (rest ++ cs2) h
      obtain ⟨h1, h2⟩ := ih reg1 hrest
      refine ⟨?_, ?_⟩
      · rw [allOk_cons_ok L _ _ _ _ _ hm]
        exact h1
      · rw [replay_ok L _ _ _ _ _ hm]
        exact h2

/-- Every call succeeds, or there is a first call that does not. -/
theorem allOk_or_first_failure (L : Lib) (m : Metric) (values : List Value) :
    ∀ reg : Registry,
      allOk L reg (values.map (fun v => (v, m))) = true ∨
        ∃ pre v post, values = pre ++ v :: post ∧
          allOk L reg (pre.map (fun v => (v, m))) = true ∧
          ∀ reg1, makeMetrics L (replay L reg (pre.map (fun v => (v, m)))) v m ≠ .ok reg1 := by
  induction values with
  | nil => intro reg; exact Or.inl rfl
  | cons v rest ih =>
      intro reg
      cases hm : makeMetrics L reg v m with
      | ok reg1 =>
          rcases ih reg1 with h | ⟨pre, w, post, h0, h1, h2⟩
          · left
            rw [List.map_cons, allOk_cons_ok L _ _ _ _ _ hm]
            exact h
          · right
            refine ⟨v :: pre, w, post, by rw [h0]; rfl, ?_, ?_⟩
            · rw [List.map_cons, allOk_cons_ok L _ _ _ _ _ hm]
              exact h1
            · intro reg2
              rw [List.map_cons, replay_ok L _ _ _ _ _ hm]
              exact h2 reg2
      | err e =>
          right
          refine ⟨[], v, rest, rfl, rfl, ?_⟩
          intro reg1 h
          have h2 : makeMetrics L reg v m = .ok reg1 := h
          rw [hm] at h2
          exact Outcome.noConfusion h2
      | panic =>
          right
          refine ⟨[], v, rest, rfl, rfl, ?_⟩
          intro reg1 h
          have h2 : makeMetrics L reg v m = .ok reg1 := h
          rw [hm] at h2
          exact Outcome.noConfusion h2

/-- The inner loop runs through a stretch of elements on which every call
succeeds. -/
theorem valuesLoop_append (L : Lib) (m : Metric) (pre rest : List Value) :
    ∀ st : ProbeState, allOk L st.reg (pre.map (fun v => (v, m))) = true →
      valuesLoop L m (pre ++ rest) st
        = valuesLoop L m rest
            ⟨replay L st.reg (pre.map (fun v => (v, m))), st.calls ++ pre.map (fun v => (v, m))⟩ := by
  induction pre with
  | nil =>
      intro st _
      simp [replay]
  | cons v more ih =>
      intro st h
      obtain ⟨reg1, hm, hrest⟩ := allOk_cons_true L st.reg v m _ h
      have hstep : valuesLoop L m (v :: more ++ rest) st
          = valuesLoop L m (more ++ rest) ⟨reg1, st.calls ++ [(v, m)]⟩ := by
        show valuesLoop L m (v :: (more ++ rest)) st = _
        simp only [valuesLoop, hm]
      rw [hstep, ih ⟨reg1, st.calls ++ [(v, m)]⟩ hrest, List.map_cons,
        replay_ok L _ _ _ _ _ hm]
      simp

theorem valuesLoop_ok (L : Lib) (m : Metric) (values : List Value) (st : ProbeState)
    (h : allOk L st.reg (values.map (fun v => (v, m))) = true) :
    valuesLoop L m values st
      = (⟨replay L st.reg (values.map (fun v => (v, m))),
          st.calls ++ values.map (fun v => (v, m))⟩, .next) := by
  have h1 := valuesLoop_append L m values [] st h
  rw [List.append_nil] at h1
  rw [h1]
  rfl

theorem valuesLoop_err (L : Lib) (m : Metric) (pre : List Value) (v : Value)
    (post : List Value) (st : ProbeState) (e : GoError)
    (h : allOk L st.reg (pre.map (fun v => (v, m))) = true)
    (hv : makeMetrics L (replay L st.reg (pre.map (fun v => (v, m)))) v m = .err e) :
    valuesLoop L m (pre ++ v :: post) st
      = (⟨replay L st.reg (pre.map (fun v => (v, m))),
          st.calls ++ (pre ++ [v]).map (fun v => (v, m))⟩, .ret e) := by
  rw [valuesLoop_append L m pre (v :: post) st h]
  simp only [valuesLoop, hv]
  simp

theorem valuesLoop_panic (L : Lib) (m : Metric) (pre : List Value) (v : Value)
    (post : List Value) (st : ProbeState)
    (h : allOk L st.reg (pre.map (fun v => (v, m))) = true)
    (hv : makeMetrics L (replay L st.reg (pre.map (fun v => (v, m)))) v m = .panic) :
    valuesLoop L m (pre ++ v :: post) st
      = (⟨replay L st.reg (pre.map (fun v => (v, m))),
          st.calls ++ (pre ++ [v]).map (fun v => (v, m))⟩, .panic) := by
  rw [valuesLoop_append L m pre (v :: post) st h]
  simp only [valuesLoop, hv]
  simp

theorem metricStep_select (L : Lib) (bodyJSON : Value) (m : Metric) (st : ProbeState) :
    metricStep L bodyJSON m st
      = match selectValue L bodyJSON m with
        | .error err => (st, .ret err)
        | .ok value => fanOut L m value st := by
  unfold metricStep selectValue
  split <;> rfl

/-- The outer loop runs through a stretch of metric definitions whose
selections succeed and whose calls all succeed. -/
theorem metricsLoop_append (L : Lib) (bodyJSON : Value) (pre rest : List Metric) :
    ∀ (cs : List (Value × Metric)) (st : ProbeState),
      plannedCalls L bodyJSON pre = some cs → allOk L st.reg cs = true →
        metricsLoop L bodyJSON (pre ++ rest) st
          = metricsLoop L bodyJSON rest ⟨replay L st.reg cs, st.calls ++ cs⟩ := by
  induction pre with
  | nil =>
      intro cs st hplan _
      simp only [plannedCalls, Option.some.injEq] at hplan
      subst hplan
      simp [replay]
  | cons m more ih =>
      intro cs st hplan hok
      cases hsel : selectValue L bodyJSON m with
      | error err => simp [plannedCalls, hsel] at hplan
      | ok r =>
          cases hslice : asSlice r with
          | none => simp [plannedCalls, hsel, hslice] at hplan
          | some values =>
              cases hmore : plannedCalls L bodyJSON more with
              | none => simp [plannedCalls, hsel, hslice, hmore] at hplan
              | some cs1 =>
                  simp only [plannedCalls, hsel, hslice, hmore, Option.some.injEq] at hplan
                  subst hplan
                  obtain ⟨hok1, hok2⟩ := allOk_append L _ _ st.reg hok
                  have hstep : metricStep L bodyJSON m st
                      = (⟨replay L st.reg (values.map (fun v => (v, m))),
                          st.calls ++ values.map (fun v => (v, m))⟩, .next) := by
                    rw [metricStep_select, hsel]
                    simp only [fanOut, hslice]
                    exact valuesLoop_ok L m values st hok1
                  have hloop : metricsLoop L bodyJSON (m :: more ++ rest) st
                      = metricsLoop L bodyJSON (more ++ rest)
                          ⟨replay L st.reg (values.map (fun v => (v, m))),
                            st.calls ++ values.map (fun v => (v, m))⟩ := by
                    show metricsLoop L bodyJSON (m :: (more ++ rest)) st = _
                    simp only [metricsLoop, hstep]
                  rw [hloop, ih cs1 _ hmore hok2, replay_append]
                  simp

theorem handleProbe_loop (L : Lib) (cfg : Config) (q : List (String × String))
    (reg : Registry) (mod : Module) (body : Option String) (bodyJSON : Value)
    (hmodule : queryGet q "module" ≠ "")
    (hmod : cfg.Modules.lookup (queryGet q "module") = some mod)
    (htarget : queryGet q "target" ≠ "")
    (hbody : makeBodyFromTemplate L q mod.Body = .ok body)
    (hdoc : L.doHTTP (if queryGet q "method" = "" then "GET" else queryGet q "method")
      (queryGet q "target") mod.Headers body = .ok bodyJSON) :
    handleProbe L cfg q reg
      = match metricsLoop L bodyJSON mod.Metrics ⟨reg, []⟩ with
        | (st, .next) => (st, .metrics st.reg)
        | (st, .ret e) => (st, .failed e)
        | (st, .panic) => (st, .panicked) := by
  unfold handleProbe
  simp only [hmodule, htarget, hmod, hbody, hdoc, if_false]

theorem makeMetrics_failure_causes (L : Lib) (reg : Registry) (value : Value) (m : Metric) :
    (∀ e, metricName L value m = .error e → makeMetrics L reg value m = .err e) ∧
      (∀ name e, metricName L value m = .ok name → jq L m.Value value false = .error e →
        makeMetrics L reg value m = .err e) ∧
      (∀ name x e, metricName L value m = .ok name → jq L m.Value value false = .ok x →
        m.ValueType = "counter" → asCounterValue L x = .error e →
        makeMetrics L reg value m = .err e) ∧
      (∀ name x e, metricName L value m = .ok name → jq L m.Value value false = .ok x →
        m.ValueType = "gauge" → asGaugeValue L x = .error e →
        makeMetrics L reg value m = .err e) ∧
      (∀ name x, metricName L value m = .ok name → jq L m.Value value false = .ok x →
        m.ValueType ≠ "counter" → m.ValueType ≠ "gauge" →
        makeMetrics L reg value m = .err (.unsupported m.ValueType)) := by
  refine ⟨?_, ?_, ?_, ?_, ?_⟩
  · intro e h
    simp only [makeMetrics, h]
  · intro name e h1 h2
    simp only [makeMetrics, h1, h2]
  · intro name x e h1 h2 h3 h4
    simp only [makeMetrics, h1, h2, h3, h4, if_true]
  · intro name x e h1 h2 h3 h4
    have hne : ¬ (("gauge" : String) = "counter") := by decide
    simp only [makeMetrics, h1, h2, h4, h3, hne, if_true, if_false]
  · intro name x h1 h2 h3 h4
    simp only [makeMetrics, h1, h2, h3, h4, if_false]

/-- C5 (amended). A probe whose module is found and whose document is
retrieved processes the metric definitions `pre`, whose selections and
`makeMetrics` calls `cs0` all succeed, and then fails at the definition `m`:
either the selection query of `m` returns the error `e`, or `makeMetrics`
returns `e` on an element `v` of the fan-out after succeeding on the
elements `vpre` before it. In both cases the handler logs `e` and returns
without writing a metrics body, no later element or definition is processed,
and the registry it leaves is the registry before the probe with the writes
of the calls that succeeded before the failure applied in order: what they
wrote stays. The last part lists what makes `makeMetrics` return an error:
a failing name or label query, a failing value query, a failing counter or
gauge coercion, an unsupported `valueType`. -/
theorem handleProbe_failure_keeps_writes (L : Lib) (cfg : Config) (q : List (String × String))
    (reg : Registry) (mod : Module) (body : Option String) (bodyJSON : Value)
    (pre : List Metric) (m : Metric) (post : List Metric) (cs0 : List (Value × Metric))
    (e : GoError)
    (hmodule : queryGet q "module" ≠ "")
    (hmod : cfg.Modules.lookup (queryGet q "module") = some mod)
    (htarget : queryGet q "target" ≠ "")
    (hbody : makeBodyFromTemplate L q mod.Body = .ok body)
    (hdoc : L.doHTTP (if queryGet q "method" = "" then "GET" else queryGet q "method")
      (queryGet q "target") mod.Headers body = .ok bodyJSON)
    (hms : mod.Metrics = pre ++ m :: post)
    (hpre : plannedCalls L bodyJSON pre = some cs0)
    (hok : allOk L reg cs0 = true) :
    (selectValue L bodyJSON m = .error e →
        handleProbe L cfg q reg = (⟨replay L reg cs0, cs0⟩, .failed e)) ∧
      (∀ r vpre v vpost, selectValue L bodyJSON m = .ok r →
        asSlice r = some (vpre ++ v :: vpost) →
        allOk L (replay L reg cs0) (vpre.map (fun v => (v, m))) = true →
        makeMetrics L (replay L reg (cs0 ++ vpre.map (fun v => (v, m)))) v m = .err e →
        handleProbe L cfg q reg
          = (⟨replay L reg (cs0 ++ vpre.map (fun v => (v, m))),
              cs0 ++ (vpre ++ [v]).map (fun v => (v, m))⟩, .failed e)) ∧
      (∀ (reg1 : Registry) (value1 : Value) (m1 : Metric),
        (∀ e1, metricName L value1 m1 = .error e1 → makeMetrics L reg1 value1 m1 = .err e1) ∧
        (∀ name e1, metricName L value1 m1 = .ok name →
          jq L m1.Value value1 false = .error e1 → makeMetrics L reg1 value1 m1 = .err e1) ∧
        (∀ name x e1, metricName L value1 m1 = .ok name →
          jq L m1.Value value1 false = .ok x → m1.ValueType = "counter" →
          asCounterValue L x = .error e1 → makeMetrics L reg1 value1 m1 = .err e1) ∧
        (∀ name x e1, metricName L value1 m1 = .ok name →
          jq L m1.Value value1 false = .ok x → m1.ValueType = "gauge" →
          asGaugeValue L x = .error e1 → makeMetrics L reg1 value1 m1 = .err e1) ∧
        (∀ name x, metricName L value1 m1 = .ok name →
          jq L m1.Value value1 false = .ok x → m1.ValueType ≠ "counter" →
          m1.ValueType ≠ "gauge" →
          makeMetrics L reg1 value1 m1 = .err (.unsupported m1.ValueType))) := by
  have hloop := handleProbe_loop L cfg q reg mod body bodyJSON hmodule hmod htarget hbody hdoc
  have hrun := metricsLoop_append L bodyJSON pre (m :: post) cs0 ⟨reg, []⟩ hpre hok
  rw [← hms] at hrun
  simp only [List.nil_append] at hrun
  refine ⟨?_, ?_, fun reg1 value1 m1 => makeMetrics_failure_causes L reg1 value1 m1⟩
  · intro hsel
    have hstep : metricStep L bodyJSON m ⟨replay L reg cs0, cs0⟩
        = (⟨replay L reg cs0, cs0⟩, .ret e) := by
      rw [metricStep_select, hsel]
    rw [hloop, hrun]
    simp only [metricsLoop, hstep]
  · intro r vpre v vpost hsel hslice hokv hv
    rw [replay_append] at hv
    have hstep : metricStep L bodyJSON m ⟨replay L reg cs0, cs0⟩
        = (⟨replay L reg (cs0 ++ vpre.map (fun v => (v, m))),
            cs0 ++ (vpre ++ [v]).map (fun v => (v, m))⟩, .ret e) := by
      rw [metricStep_select, hsel]
      simp only [fanOut, hslice]
      rw [valuesLoop_err L m vpre v vpost ⟨replay L reg cs0, cs0⟩ e hokv hv, replay_append]
    rw [hloop, hrun]
    simp only [metricsLoop, hstep]

theorem handleProbe_failure_keeps_writes_witness :
    handleProbe sampleLib sampleConfig sampleRequest []
      = (⟨[("up\x7b\x7d", .gauge (float64OfInt 1))],
          [(.float ⟨0x3FF0000000000000⟩, sampleMetric "gauge" "1"),
            (.float ⟨0x4000000000000000⟩, sampleMetric "gauge" "1"),
            (.float ⟨0x3FF0000000000000⟩, sampleMetric "histogram" "1")]⟩,
        .failed (.unsupported "histogram")) :=
  (handleProbe_failure_keeps_writes sampleLib sampleConfig sampleRequest []
    ⟨[sampleMetric "gauge" "1", sampleMetric "histogram" "1"], "", []⟩ none sampleDocument
    [sampleMetric "gauge" "1"] (sampleMetric "histogram" "1") []
    [(.float ⟨0x3FF0000000000000⟩, sampleMetric "gauge" "1"),
      (.float ⟨0x4000000000000000⟩, sampleMetric "gauge" "1")]
    (.unsupported "histogram") (by decide) rfl (by decide) rfl rfl rfl rfl rfl).2.1
    sampleDocument [] (.float ⟨0x3FF0000000000000⟩) [.float ⟨0x4000000000000000⟩]
    rfl rfl rfl rfl

/-- C5 (counterexample). A probe of the sample module on an empty registry:
the first metric definition is a gauge and succeeds, the second has the
kind `histogram` and fails. The handler writes no metrics body, yet the
registry afterwards holds the gauge `up` and is not the empty registry it
was before. -/
theorem handleProbe_failure_changes_registry :
    (handleProbe sampleLib sampleConfig sampleRequest []).2 = .failed (.unsupported "histogram") ∧
      (handleProbe sampleLib sampleConfig sampleRequest []).1.reg
        = [("up\x7b\x7d", .gauge (float64OfInt 1))] ∧
      (handleProbe sampleLib sampleConfig sampleRequest []).1.reg ≠ [] := by
  refine ⟨rfl, rfl, ?_⟩
  intro h
  have h2 : [("up\x7b\x7d", Series.gauge (float64OfInt 1))] = ([] : Registry) := h
  exact List.noConfusion h2

/-! ## Fan-out -/

theorem asSlice_scalar (r : Value) (hnull : r ≠ .null) (hseq : ∀ xs, r ≠ .slice xs) :
    asSlice r = some [r] := by
  cases r with
  | null => exact absurd rfl hnull
  | slice xs => exact absurd rfl (hseq xs)
  | bool b => rfl
  | int i => rfl
  | float f => rfl
  | bigint i => rfl
  | str s => rfl
  | map kvs => rfl

/-- C8 (amended). For a selection result `r` that is not `nil`: `asSlice`
returns the elements of a sequence in their order, and `[r]` for any other
value. The loop of `handleProbe` calls `makeMetrics` on these elements in
that order and stops after the first call that does not return `nil`:
when every call succeeds it makes exactly the N calls, one per element (none
for the empty sequence), and runs to its end; when the calls on the elements
`pre` succeed and the call on the next element `v` returns an error (or
panics), the calls made are those on `pre` and on `v`, no call is made on the
elements after `v`, and the handler returns (or panics). One of the two is
always the case. With an empty selection query `r` is the whole document. -/
theorem fanOut_invocations (L : Lib) (bodyJSON r : Value) (m : Metric) (st : ProbeState)
    (hr : r ≠ .null) :
    (∀ xs, r = .slice xs → asSlice r = some xs) ∧
      ((∀ xs, r ≠ .slice xs) → asSlice r = some [r]) ∧
      (∃ values, asSlice r = some values) ∧
      (∀ values, asSlice r = some values →
        (allOk L st.reg (values.map (fun v => (v, m))) = true →
          fanOut L m r st
            = (⟨replay L st.reg (values.map (fun v => (v, m))),
                st.calls ++ values.map (fun v => (v, m))⟩, .next)) ∧
        (∀ pre v post, values = pre ++ v :: post →
          allOk L st.reg (pre.map (fun v => (v, m))) = true →
          (∀ e, makeMetrics L (replay L st.reg (pre.map (fun v => (v, m)))) v m = .err e →
            fanOut L m r st
              = (⟨replay L st.reg (pre.map (fun v => (v, m))),
                  st.calls ++ (pre ++ [v]).map (fun v => (v, m))⟩, .ret e)) ∧
          (makeMetrics L (replay L st.reg (pre.map (fun v => (v, m)))) v m = .panic →
            fanOut L m r st
              = (⟨replay L st.reg (pre.map (fun v => (v, m))),
                  st.calls ++ (pre ++ [v]).map (fun v => (v, m))⟩, .panic))) ∧
        (allOk L st.reg (values.map (fun v => (v, m))) = true ∨
          ∃ pre v post, values = pre ++ v :: post ∧
            allOk L st.reg (pre.map (fun v => (v, m))) = true ∧
            ∀ reg1, makeMetrics L (replay L st.reg (pre.map (fun v => (v, m)))) v m ≠ .ok reg1)) ∧
      (m.Query = "" → metricStep L bodyJSON m st = fanOut L m bodyJSON st) := by
  refine ⟨fun xs h => by rw [h]; rfl, asSlice_scalar r hr, ?_, ?_, ?_⟩
  · cases r with
    | null => exact absurd rfl hr
    | slice xs => exact ⟨xs, rfl⟩
    | bool b => exact ⟨_, rfl⟩
    | int i => exact ⟨_, rfl⟩
    | float f => exact ⟨_, rfl⟩
    | bigint i => exact ⟨_, rfl⟩
    | str s => exact ⟨_, rfl⟩
    | map kvs => exact ⟨_, rfl⟩
  · intro values hvalues
    have hfan : fanOut L m r st = valuesLoop L m values st := by
      unfold fanOut
      rw [hvalues]
    refine ⟨?_, ?_, allOk_or_first_failure L m values st.reg⟩
    · intro hok
      rw [hfan]
      exact valuesLoop_ok L m values st hok
    · intro pre v post hsplit hok
      refine ⟨?_, ?_⟩
      · intro e hv
        rw [hfan, hsplit]
        exact valuesLoop_err L m pre v post st e hok hv
      · intro hv
        rw [hfan, hsplit]
        exact valuesLoop_panic L m pre v post st hok hv
  · intro hq
    unfold metricStep
    rw [if_pos hq]

theorem fanOut_invocations_witness :
    sampleDocument ≠ .null ∧
      fanOut sampleLib (sampleMetric "gauge" "1") sampleDocument ⟨[], []⟩
        = (⟨[("up\x7b\x7d", .gauge (float64OfInt 1))],
            [(.float ⟨0x3FF0000000000000⟩, sampleMetric "gauge" "1"),
              (.float ⟨0x4000000000000000⟩, sampleMetric "gauge" "1")]⟩, .next) ∧
      fanOut sampleLib (sampleMetric "histogram" "1") sampleDocument ⟨[], []⟩
        = (⟨[], [(.float ⟨0x3FF0000000000000⟩, sampleMetric "histogram" "1")]⟩,
            .ret (.unsupported "histogram")) :=
  ⟨fun h => Value.noConfusion h,
    ((fanOut_invocations sampleLib sampleDocument sampleDocument (sampleMetric "gauge" "1")
      ⟨[], []⟩ (fun h => Value.noConfusion h)).2.2.2.1
        [.float ⟨0x3FF0000000000000⟩, .float ⟨0x4000000000000000⟩] rfl).1 rfl,
    (((fanOut_invocations sampleLib sampleDocument sampleDocument (sampleMetric "histogram" "1")
      ⟨[], []⟩ (fun h => Value.noConfusion h)).2.2.2.1
        [.float ⟨0x3FF0000000000000⟩, .float ⟨0x4000000000000000⟩] rfl).2.1
        [] (.float ⟨0x3FF0000000000000⟩) [.float ⟨0x4000000000000000⟩] rfl rfl).1
        (.unsupported "histogram") rfl⟩

/-- C8 (counterexample). The selection result is the sequence of the two
elements 1 and 2 and the metric has the kind `histogram`: `makeMetrics` is
called on the first element, fails, and the handler returns. One call is
made, not two. -/
theorem fanOut_stops_at_failure :
    asSlice sampleDocument = some [.float ⟨0x3FF0000000000000⟩, .float ⟨0x4000000000000000⟩] ∧
      (fanOut sampleLib (sampleMetric "histogram" "1") sampleDocument ⟨[], []⟩).2
        = .ret (.unsupported "histogram") ∧
      (fanOut sampleLib (sampleMetric "histogram" "1") sampleDocument ⟨[], []⟩).1.calls
        = [(.float ⟨0x3FF0000000000000⟩, sampleMetric "histogram" "1")] ∧
      (fanOut sampleLib (sampleMetric "histogram" "1") sampleDocument ⟨[], []⟩).1.calls.length ≠ 2 :=
  ⟨rfl, rfl, rfl, by decide⟩

/-- C9 (the code at the failing input). On `nil`, `asSlice` panics: it
returns no sequence, and the handler panics before any `makeMetrics` call,
both for a `nil` document with an empty selection query and for a selection
query whose program emits no value. -/
theorem asSlice_nil_panics (L : Lib) (m : Metric) (st : ProbeState) (bodyJSON : Value) :
    asSlice .null = none ∧
      fanOut L m .null st = (st, .panic) ∧
      (m.Query = "" → metricStep L .null m st = (st, .panic)) ∧
      (m.Query ≠ "" → L.Parse m.Query = none → L.Run m.Query bodyJSON = [] →
        metricStep L bodyJSON m st = (st, .panic)) := by
  refine ⟨rfl, rfl, ?_, ?_⟩
  · intro hq
    unfold metricStep
    rw [if_pos hq]
    rfl
  · intro hq hparse hrun
    unfold metricStep jq
    rw [if_neg hq, hparse, hrun]
    rfl

theorem valuesLoop_singleton_calls (L : Lib) (m : Metric) (v : Value) (st : ProbeState) :
    (valuesLoop L m [v] st).1.calls = st.calls ++ [(v, m)] := by
  cases hm : makeMetrics L st.reg v m <;> simp only [valuesLoop, hm]

/-- For a metric whose non-empty selection query parses and emits a stream
of values without error, the earlier values `init` followed by the last
value `vk`, the step behaves exactly as the fan-out over `vk`: every
`makeMetrics` call it adds is a call on an element of `asSlice(vk)`, and
when `vk` is neither a sequence nor `nil` it adds exactly one call, on
`vk`. -/
theorem metricStep_stream (L : Lib) (bodyJSON : Value) (m : Metric) (st : ProbeState)
    (init : List Value) (vk : Value)
    (hq : m.Query ≠ "") (hparse : L.Parse m.Query = none)
    (hrun : L.Run m.Query bodyJSON = (init ++ [vk]).map Item.val) :
    metricStep L bodyJSON m st = fanOut L m vk st ∧
      (∃ cs, (metricStep L bodyJSON m st).1.calls = st.calls ++ cs ∧
        ∀ c ∈ cs, c.2 = m ∧ ∃ values, asSlice vk = some values ∧ c.1 ∈ values) ∧
      (vk ≠ .null → (∀ xs, vk ≠ .slice xs) →
        (metricStep L bodyJSON m st).1.calls = st.calls ++ [(vk, m)]) := by
  have hjq : jq L m.Query bodyJSON false = .ok vk := by
    have h := jq_values L m.Query bodyJSON (init ++ [vk]) false hparse hrun
    rw [h]
    simp
  have hstep : metricStep L bodyJSON m st = fanOut L m vk st := by
    unfold metricStep
    rw [if_neg hq, hjq]
  refine ⟨hstep, ?_, ?_⟩
  · rw [hstep]
    unfold fanOut
    cases hs : asSlice vk with
    | none => exact ⟨[], by simp, fun c hc => absurd hc (List.not_mem_nil c)⟩
    | some values =>
        rcases valuesLoop_spec L m values st with ⟨_, h2, _⟩ | ⟨pre, v, post, h0, _, h2, _, _⟩
        · refine ⟨_, h2, ?_⟩
          intro c hc
          obtain ⟨w, hw, rfl⟩ := List.mem_map.mp hc
          exact ⟨rfl, values, rfl, hw⟩
        · refine ⟨_, h2, ?_⟩
          intro c hc
          obtain ⟨w, hw, rfl⟩ := List.mem_map.mp hc
          refine ⟨rfl, values, rfl, ?_⟩
          rw [h0]
          rcases List.mem_append.mp hw with h | h
          · exact List.mem_append_left _ h
          · rw [List.mem_singleton] at h
            rw [h]
            simp
  · intro hnull hseq
    rw [hstep]
    unfold fanOut
    rw [asSlice_scalar vk hnull hseq]
    exact valuesLoop_singleton_calls L m vk st

/-- C10 (the code at the failing input). For the selection query `1, null`,
a stream of two non-sequence values, `jq` returns the last value `nil`,
`asSlice` panics on it, and the handler panics without a single
`makeMetrics` call, where the claim has exactly one; the same holds for
every stream that ends in `nil`. For the stream `1, 2` the one call is made,
on the last value 2. -/
theorem metricStep_stream_nil_last :
    jq sampleLib "1, null" sampleDocument false = .ok .null ∧
      metricStep sampleLib sampleDocument ⟨"1, null", "up", [], "gauge", "."⟩ ⟨[], []⟩
        = (⟨[], []⟩, .panic) ∧
      (metricStep sampleLib sampleDocument ⟨"1, null", "up", [], "gauge", "."⟩ ⟨[], []⟩).1.calls
        = [] ∧
      (metricStep sampleLib sampleDocument ⟨"1, 2", "up", [], "gauge", "."⟩ ⟨[], []⟩).1.calls
        = [(.int 2, ⟨"1, 2", "up", [], "gauge", "."⟩)] ∧
      (∀ (L : Lib) (bodyJSON : Value) (m : Metric) (st : ProbeState) (init : List Value),
        m.Query ≠ "" → L.Parse m.Query = none →
        L.Run m.Query bodyJSON = (init ++ [Value.null]).map Item.val →
        metricStep L bodyJSON m st = (st, .panic)) := by
  refine ⟨rfl, rfl, rfl, rfl, ?_⟩
  intro L bodyJSON m st init hq hparse hrun
  rw [(metricStep_stream L bodyJSON m st init .null hq hparse hrun).1]
  rfl

end JqExporter
